import Mathlib

/-!
Verification of the Snip URL-shortener frontend core logic.

The definitions below are shallow embeddings of the TypeScript source:

* `validateAlias`, `parseUrls`, `validateUrls` — `src/frontend/src/components/url/URLForm.tsx`
* `ALIAS_PATTERN` / `urlPatternTest` — the regexes `^[a-zA-Z0-9_-]{3,20}$` and `/^https?:\/\/.+/i`
* `isExpired` — `src/frontend/src/utils/formatters.ts`
* `APIError.isNotFound` / `isExpired` / `deleteUrl` — `src/frontend/src/services/api.ts`
* `renderedReferrers` — `src/frontend/src/components/analytics/AnalyticsModal.tsx`
* `saveToHistory` / `removeFromHistory` — `useHistory` in `src/frontend/src/components/ui/Toast.tsx`

React `useState` setters are modelled by explicit state passing; `fetch` responses are
modelled as explicit `Response` values; JavaScript `Date` parsing is abstracted to the
parsed instant (an integer timestamp).  The backend record store and analytics
aggregator are not part of the source tree; where a claim depends on them they are
modelled from the specification text and marked as such.
-/

/-! ## Alias validation (URLForm.tsx, constants ALIAS_PATTERN) -/

/-- One character class test of the regex `[a-zA-Z0-9_-]` from `ALIAS_PATTERN`. -/
def isAliasChar (c : Char) : Bool :=
  ((Char.toNat 'a' ≤ c.toNat && c.toNat ≤ Char.toNat 'z')
    || (Char.toNat 'A' ≤ c.toNat && c.toNat ≤ Char.toNat 'Z')
    || (Char.toNat '0' ≤ c.toNat && c.toNat ≤ Char.toNat '9')
    || c == '_' || c == '-')

/-- Embedding of `ALIAS_PATTERN.test`: the anchored regex `^[a-zA-Z0-9_-]{3,20}$`
matches exactly the strings of 3 to 20 characters drawn from the class. -/
def aliasPatternTest (s : String) : Bool :=
  3 ≤ s.length && s.length ≤ 20 && s.data.all isAliasChar

/-- The validation message set by `validateAlias` in `URLForm.tsx`. -/
def aliasErrorMsg : String :=
  "Alias must be 3-20 characters: letters, numbers, hyphens, underscores only"

/-- Embedding of `validateAlias` from `URLForm.tsx` lines 18-26.  The React state
`aliasError` is passed explicitly: the function receives the current error state and
returns the boolean result together with the new error state.  Note the empty-alias
branch returns `true` without touching the error state. -/
def validateAlias (aliasStr : String) (aliasError : Option String) : Bool × Option String :=
  if aliasStr.isEmpty then (true, aliasError)
  else if aliasPatternTest aliasStr then (true, none)
  else (false, some aliasErrorMsg)

/-! ## Expiration check (formatters.ts) -/

/-- Embedding of `isExpired` from `formatters.ts` lines 10-13.  `expiresAt` is the
parsed expiration instant (`new Date(expiresAt)` abstracted to an integer timestamp,
`none` for a null `expires_at`); `now` is the wall clock at evaluation time
(`new Date()`). -/
def isExpired (expiresAt : Option Int) (now : Int) : Bool :=
  match expiresAt with
  | none => false
  | some t => t < now

/-! ## API error classifiers and deleteUrl (api.ts) -/

/-- Embedding of the `APIError` class from `api.ts` (the `details` record is omitted:
no classifier reads it). -/
structure APIError where
  code : String
  status : Nat
  message : String
deriving Repr, DecidableEq

/-- `APIError.isNotFound` from `api.ts` lines 42-44. -/
def APIError.isNotFound (e : APIError) : Bool :=
  e.code == "URL_NOT_FOUND" || e.status == 404

/-- `APIError.isExpired` from `api.ts` lines 49-51. -/
def APIError.isExpired (e : APIError) : Bool :=
  e.code == "URL_EXPIRED" || e.status == 410

/-- The body of a fetch `Response` as seen by `parseErrorResponse` in `api.ts`:
a standardized `{error: {...}}` object, a legacy `{detail: string}` object, a
`{detail: <non-string>}` object, some other JSON value, or an unparsable body. -/
inductive RespBody where
  | errorObj (code : String) (message : String) (status : Nat)
  | detailStr (s : String)
  | detailOther
  | otherJson
  | invalid
deriving Repr, DecidableEq

/-- A fetch `Response` as consumed by the api.ts helpers. -/
structure Response where
  ok : Bool
  status : Nat
  body : RespBody
deriving Repr, DecidableEq

/-- Embedding of `parseErrorResponse` from `api.ts` lines 73-111. -/
def parseErrorResponse (r : Response) : APIError :=
  match r.body with
  | .errorObj c m st => ⟨c, st, m⟩
  | .detailStr s => ⟨"ERROR", r.status, s⟩
  | .detailOther => ⟨"ERROR", r.status, "An error occurred"⟩
  | .otherJson => ⟨"UNKNOWN_ERROR", r.status, "An unexpected error occurred"⟩
  | .invalid => ⟨"PARSE_ERROR", r.status, "Request failed with status " ++ toString r.status⟩

/-- Embedding of `deleteUrl` from `api.ts` lines 157-164, as a function of the fetch
response: it throws the parsed `APIError` exactly when `!response.ok && response.status !== 404`. -/
def deleteUrl (r : Response) : Except APIError Unit :=
  if !r.ok && r.status != 404 then .error (parseErrorResponse r) else .ok ()

/-! ## Referrer rendering (AnalyticsModal.tsx) -/

/-- One entry of `top_referrers` from the `URLAnalytics` interface. -/
structure ReferrerEntry where
  referrer : String
  count : Nat
deriving Repr, DecidableEq

/-- Embedding of the referrer rendering in `AnalyticsModal.tsx` lines 128-150: the
list of entries the modal renders.  When `top_referrers` is empty the whole section
is skipped (no entries rendered); otherwise the modal maps over
`top_referrers.slice(0, 5)`. -/
def renderedReferrers (l : List ReferrerEntry) : List ReferrerEntry :=
  if l.length > 0 then l.take 5 else []

/-! ## Bulk form URL validation (BulkURLForm in URLForm.tsx) -/

/-- JavaScript regex `.` (without the `s` flag) matches any character except the four
line terminators. -/
def isLineTerm (c : Char) : Bool :=
  c == '\n' || c == '\r' || c == (Char.ofNat 0x2028) || c == (Char.ofNat 0x2029)

/-- The `.+` tail of the regex `/^https?:\/\/.+/i`: at least one character, the first
matched character not a line terminator (with no `$` anchor, nothing after the first
matched character is constrained). -/
def matchDotPlus : List Char → Bool
  | [] => false
  | c :: _ => !(isLineTerm c)

/-- The regex `/^https?:\/\/.+/i` on a case-folded character list: the alternation
`https?` resolves into the two literal prefixes `https://` and `http://`, each
followed by `.+`. -/
def urlTestChars (l : List Char) : Bool :=
  (decide (l.take 8 = "https://".data) && matchDotPlus (l.drop 8))
    || (decide (l.take 7 = "http://".data) && matchDotPlus (l.drop 7))

/-- Embedding of `urlPattern.test(url)` from `validateUrls` in `URLForm.tsx` line 319:
the `i` flag is modelled by lowercasing every character before matching. -/
def urlPatternTest (s : String) : Bool :=
  urlTestChars (s.data.map Char.toLower)

/-- Embedding of `parseUrls` from `URLForm.tsx` lines 302-307: split the textarea on
newlines, trim each line, drop empty lines. -/
def parseUrls (text : String) : List String :=
  ((text.splitOn "\n").map String.trim).filter (fun l => l.length > 0)

/-- Index (0-based) of the first URL in the list failing `urlPatternTest`, mirroring
the `for` loop of `validateUrls`. -/
def firstInvalidIdx : List String → Nat → Option Nat
  | [], _ => none
  | u :: rest, i => if urlPatternTest u then firstInvalidIdx rest (i + 1) else some i

/-- Embedding of `validateUrls` from `URLForm.tsx` lines 309-329.  The React state
`validationError` is returned explicitly alongside the boolean result. -/
def validateUrls (urls : List String) : Bool × Option String :=
  if urls.length == 0 then (false, some "Enter at least one URL")
  else if urls.length > 10 then (false, some "Maximum 10 URLs allowed")
  else
    match firstInvalidIdx urls 0 with
    | some i =>
        (false, some ("Line " ++ toString (i + 1)
          ++ ": Invalid URL format (must start with http:// or https://)"))
    | none => (true, none)

/-- Embedding of `handleSubmit` of `BulkURLForm` (`URLForm.tsx` lines 331-338): the
list of URLs handed to `onSubmit`, or `none` when validation rejects the batch and
nothing is submitted. -/
def handleBulkSubmit (urlsText : String) : Option (List String) :=
  let urls := parseUrls urlsText
  if (validateUrls urls).fst then some urls else none

/-! ## Spec-side definition of URL validity -/

/-- Spec-side character set, following the words of the spec: characters a URI may
contain per RFC 3986 (unreserved, reserved and the percent sign).  A space is not
among them. -/
def isUriChar (c : Char) : Bool :=
  c.isAlphanum
    || ['-', '.', '_', '~', ':', '/', '?', '#', '[', ']', '@',
        '!', '$', '&', '(', ')', '*', '+', ',', ';', '=', '%'].contains c

/-- Spec-side definition, following the words of the spec: `original_url` must be a
syntactically valid absolute HTTP/HTTPS URL — scheme `http` or `https`, the `://`
separator, then a nonempty remainder made only of URI characters.  Written to be
compared with the source-derived `urlPatternTest`. -/
def specValidHttpUrl (s : String) : Bool :=
  (decide (s.data.take 7 = "http://".data) && decide ((s.data.drop 7).length > 0)
      && (s.data.drop 7).all isUriChar)
    || (decide (s.data.take 8 = "https://".data) && decide ((s.data.drop 8).length > 0)
      && (s.data.drop 8).all isUriChar)

/-! ## Local URL history (useHistory in Toast.tsx) -/

/-- Embedding of the `ShortenedURL` interface from the frontend types. -/
structure ShortenedURL where
  id : Nat
  short_code : String
  original_url : String
  short_url : String
  created_at : String
  expires_at : Option String
  click_count : Nat
  is_active : Bool
deriving Repr, DecidableEq

/-- `MAX_HISTORY_ITEMS` from the frontend constants. -/
def MAX_HISTORY_ITEMS : Nat := 10

/-- Embedding of `saveToHistory` from `useHistory` (`Toast.tsx` lines 128-142): drop
any existing entry with the same `short_code`, prepend the new URL, keep at most
`MAX_HISTORY_ITEMS` entries. -/
def saveToHistory (url : ShortenedURL) (prev : List ShortenedURL) : List ShortenedURL :=
  (url :: prev.filter (fun item => item.short_code != url.short_code)).take MAX_HISTORY_ITEMS

/-- Embedding of `removeFromHistory` from `useHistory` (`Toast.tsx` lines 145-155). -/
def removeFromHistory (id : Nat) (prev : List ShortenedURL) : List ShortenedURL :=
  prev.filter (fun item => item.id != id)

/-- One history operation, as exposed by the `useHistory` hook. -/
inductive HistOp where
  | save (url : ShortenedURL)
  | remove (id : Nat)

/-- Apply a history operation to the current history state. -/
def applyHistOp (st : List ShortenedURL) : HistOp → List ShortenedURL
  | .save url => saveToHistory url st
  | .remove id => removeFromHistory id st

/-- Run a sequence of history operations from a starting state. -/
def applyHistOps (st : List ShortenedURL) : List HistOp → List ShortenedURL
  | [] => st
  | op :: ops => applyHistOps (applyHistOp st op) ops

/-- The history invariant: at most `MAX_HISTORY_ITEMS` entries, pairwise distinct
`short_code` values. -/
def histInv (l : List ShortenedURL) : Prop :=
  l.length ≤ MAX_HISTORY_ITEMS ∧ List.Pairwise (fun a b => a.short_code ≠ b.short_code) l

/-! ## Bulk creation (modelled from the spec) -/

/-- One request of a bulk-create batch (`{original_url, expires_in_hours?}`). -/
structure BulkRequest where
  original_url : String
  expires_in_hours : Option Nat
deriving Repr, DecidableEq

/-- Modelled from the spec: the `URLRecord` a successful `RecordStore.create` returns
for a bulk item (the record fields a bulk result carries; code generation and storage
are outside the claims proved here). -/
structure ModelURLRecord where
  original_url : String
  expires_in_hours : Option Nat
deriving Repr, DecidableEq

/-- Embedding of the `BulkURLResultItem` interface from the frontend types. -/
structure BulkItemResult where
  url : Option ModelURLRecord
  error : Option String
  original_url : String
deriving Repr, DecidableEq

/-- Embedding of the `BulkURLResponse` interface from the frontend types. -/
structure BulkResponse where
  results : List BulkItemResult
  success_count : Nat
  error_count : Nat
deriving Repr, DecidableEq

/-- Modelled from the spec: the per-item outcome of `RecordStore.create` inside
`BulkOrchestrator.createMany` — the backend store is not under `src/`.  A request
whose `original_url` is a syntactically valid absolute HTTP/HTTPS URL succeeds with
the full record; a malformed one fails with a validation message, and the failure
touches only this item. -/
def createOneItem (r : BulkRequest) : BulkItemResult :=
  if specValidHttpUrl r.original_url then
    { url := some ⟨r.original_url, r.expires_in_hours⟩, error := none,
      original_url := r.original_url }
  else
    { url := none, error := some "ValidationError: invalid URL", original_url := r.original_url }

/-- Modelled from the spec: `BulkOrchestrator.createMany` — the backend orchestrator
is not under `src/`.  It rejects the whole batch with a `ValidationError` when the
batch is empty or has more than `max = 10` items; otherwise it processes every item
independently through `createOneItem` and derives the aggregate counts from the
per-item results. -/
def createMany (reqs : List BulkRequest) : Except String BulkResponse :=
  if reqs.length == 0 || reqs.length > 10 then
    Except.error "ValidationError: batch size must be between 1 and 10"
  else
    let results := reqs.map createOneItem
    Except.ok
      { results := results
        success_count := (results.filter (fun it => it.url.isSome)).length
        error_count := (results.filter (fun it => it.error.isSome)).length }

/-! ## Hourly click analytics (modelled from the spec) -/

/-- Modelled from the spec: a stored `ClickEvent`, reduced to the fields the hourly
histogram reads — the backend click store is not under `src/`.  `clicked_at` is a
timestamp in seconds. -/
structure ClickEvent where
  clicked_at : Nat
  referrer : Option String
deriving Repr, DecidableEq

/-- Hour of day (0-23) of a timestamp in seconds. -/
def hourOfDay (t : Nat) : Nat := t / 3600 % 24

/-- One entry of `clicks_by_hour` from the `URLAnalytics` interface. -/
structure HourBucket where
  hour : Nat
  count : Nat
deriving Repr, DecidableEq

/-- Modelled from the spec: the `clicks_by_hour` part of
`AnalyticsAggregator.summarize` — the backend aggregator is not under `src/`.
24 buckets indexed 0-23 by hour of day across the whole event history, zero-filled. -/
def clicksByHour (events : List ClickEvent) : List HourBucket :=
  (List.range 24).map
    (fun h => ⟨h, (events.filter (fun e => hourOfDay e.clicked_at == h)).length⟩)

/-- Modelled from the spec: `total_clicks` of `AnalyticsAggregator.summarize` is the
count of all click events of the record. -/
def totalClicks (events : List ClickEvent) : Nat := events.length

/-! ## Claim theorems -/

/-- C4: a record whose `expires_at` is null is never considered expired; for a
non-null `expires_at`, the record is considered expired exactly when the parsed
expiration instant is strictly before the current wall-clock time. -/
theorem claim_C4_expiration_check :
    ∀ now : Int, isExpired none now = false
      ∧ ∀ t : Int, (isExpired (some t) now = true ↔ t < now) := by
  intro now
  refine ⟨rfl, fun t => ?_⟩
  simp [isExpired]

/-- C7: the analytics modal renders exactly the first `min 5 (length)` entries of the
`top_referrers` list, in the order the aggregator returned them (a prefix of the
list). -/
theorem claim_C7_referrer_truncation :
    ∀ l : List ReferrerEntry,
      renderedReferrers l = l.take 5
        ∧ (renderedReferrers l).length = min 5 l.length := by
  intro l
  have h : renderedReferrers l = l.take 5 := by
    unfold renderedReferrers
    split
    · rfl
    · rename_i hlen
      have : l = [] := by
        cases l with
        | nil => rfl
        | cons a t => simp at hlen
      simp [this]
  exact ⟨h, by rw [h, List.length_take]⟩

/-- C10: `deleteUrl` completes without raising exactly when the response is ok or has
status 404; otherwise it raises the parsed `APIError`. -/
theorem claim_C10_delete_404_is_success :
    ∀ r : Response, (deleteUrl r = Except.ok ()) ↔ (r.ok = true ∨ r.status = 404) := by
  intro r
  unfold deleteUrl
  cases hok : r.ok <;> by_cases hst : r.status = 404 <;> simp [hok, hst]

/-- C5 counterexample: the claim that `isNotFound()` and `isExpired()` are never both
true fails on the error value with code `URL_EXPIRED` and status 404 — both
classifiers return true there. -/
theorem claim_C5_counterexample :
    APIError.isNotFound ⟨"URL_EXPIRED", 404, "gone"⟩ = true
      ∧ APIError.isExpired ⟨"URL_EXPIRED", 404, "gone"⟩ = true := by
  exact ⟨rfl, rfl⟩

/-- C5 amended: `isNotFound()` and `isExpired()` are never both true except on
inconsistent error values that mix an expired code with a 404 status or a not-found
code with a 410 status. -/
theorem claim_C5_amended_classifiers_disjoint :
    ∀ e : APIError,
      ¬(e.code = "URL_EXPIRED" ∧ e.status = 404) →
      ¬(e.code = "URL_NOT_FOUND" ∧ e.status = 410) →
      ¬(e.isNotFound = true ∧ e.isExpired = true) := by
  intro e h1 h2 hboth
  obtain ⟨hnf, hex⟩ := hboth
  simp only [APIError.isNotFound, Bool.or_eq_true, beq_iff_eq] at hnf
  simp only [APIError.isExpired, Bool.or_eq_true, beq_iff_eq] at hex
  rcases hnf with hc | hs
  · rcases hex with hc2 | hs2
    · rw [hc] at hc2; exact absurd hc2 (by decide)
    · exact h2 ⟨hc, hs2⟩
  · rcases hex with hc2 | hs2
    · exact h1 ⟨hc2, hs⟩
    · rw [hs] at hs2; exact absurd hs2 (by decide)

/-- C5 witness: on the consistent not-found error (code `URL_NOT_FOUND`, status 404)
the two classifiers are not both true. -/
theorem claim_C5_witness :
    ¬((⟨"URL_NOT_FOUND", 404, "missing"⟩ : APIError).isNotFound = true
        ∧ (⟨"URL_NOT_FOUND", 404, "missing"⟩ : APIError).isExpired = true) :=
  claim_C5_amended_classifiers_disjoint ⟨"URL_NOT_FOUND", 404, "missing"⟩
    (by decide) (by decide)

/-- C1 counterexample: the claim that `validateAlias` accepts (returns true and
clears the alias error) exactly when the alias is empty or matches the pattern fails
at the empty alias with a stale error present: the function returns true but leaves
the error state untouched. -/
theorem claim_C1_counterexample :
    ¬(((validateAlias "" (some "stale")).fst = true
        ∧ (validateAlias "" (some "stale")).snd = none)
      ↔ (("" : String) = "" ∨ aliasPatternTest "" = true)) := by
  decide

/-- C1 amended: `validateAlias` returns true exactly when the alias is empty or
matches `^[a-zA-Z0-9_-]{3,20}$`; a non-empty matching alias clears the error, a
non-empty non-matching alias is rejected with the validation message, and an empty
alias returns true leaving the error state unchanged (the form clears it separately
in `handleAliasChange`). -/
theorem claim_C1_amended_alias_validation :
    ∀ (a : String) (st : Option String),
      ((validateAlias a st).fst = true ↔ (a = "" ∨ aliasPatternTest a = true))
        ∧ (a ≠ "" → aliasPatternTest a = true → (validateAlias a st).snd = none)
        ∧ (a ≠ "" → aliasPatternTest a = false →
            (validateAlias a st).fst = false ∧ (validateAlias a st).snd = some aliasErrorMsg)
        ∧ (a = "" → validateAlias a st = (true, st)) := by
  intro a st
  by_cases he : a = ""
  · subst he
    simp [validateAlias, show ("" : String).isEmpty = true from rfl]
  · have he2 : a.isEmpty = false := by
      rw [Bool.eq_false_iff]
      intro hcontra
      exact he ((String.isEmpty_iff a).mp hcontra)
    by_cases hp : aliasPatternTest a
    · simp [validateAlias, he2, hp, he]
    · simp only [Bool.not_eq_true] at hp
      simp [validateAlias, he2, hp, he]

/-- C1 witness: the alias `my-link` is non-empty and matches the pattern, and
validating it clears the alias error. -/
theorem claim_C1_witness :
    ("my-link" : String) ≠ "" ∧ aliasPatternTest "my-link" = true
      ∧ (validateAlias "my-link" (some "stale")).snd = none :=
  ⟨by decide, by decide,
    (claim_C1_amended_alias_validation "my-link" (some "stale")).2.1 (by decide) (by decide)⟩

/-- The scanning loop of `validateUrls` reports nothing exactly when every URL in the
list passes the pattern test, whatever the running index. -/
theorem firstInvalidIdx_eq_none (l : List String) :
    ∀ i, (firstInvalidIdx l i = none ↔ ∀ u ∈ l, urlPatternTest u = true) := by
  induction l with
  | nil => intro i; simp [firstInvalidIdx]
  | cons u rest ih =>
    intro i
    by_cases h : urlPatternTest u
    · simp [firstInvalidIdx, h, ih (i + 1)]
    · constructor
      · intro hc
        simp [firstInvalidIdx, h] at hc
      · intro hall
        exact absurd (hall u (by simp)) (by simp [h])

/-- C2 counterexample: the claim that the batch is rejected exactly when it is empty
or larger than 10 fails on the singleton batch `["not-a-url"]`: the batch has one
element, yet `validateUrls` rejects it (because of the per-line URL format check). -/
theorem claim_C2_counterexample :
    ¬((validateUrls ["not-a-url"]).fst = false
        ↔ (["not-a-url"].length = 0 ∨ ["not-a-url"].length > 10)) := by
  decide

/-- C2 amended: bulk-form validation rejects the whole batch — and nothing is
submitted — exactly when the list is empty, has more than 10 URLs, or contains a line
failing the http(s) format check; the two size checks are decided before any per-line
check. -/
theorem claim_C2_amended_batch_rejection :
    ∀ (urls : List String) (text : String),
      ((validateUrls urls).fst = false
          ↔ (urls.length = 0 ∨ urls.length > 10 ∨ ∃ u ∈ urls, urlPatternTest u = false))
        ∧ (handleBulkSubmit text = none ↔ (validateUrls (parseUrls text)).fst = false)
        ∧ (urls.length = 0 → (validateUrls urls).snd = some "Enter at least one URL")
        ∧ (urls.length > 10 → (validateUrls urls).snd = some "Maximum 10 URLs allowed") := by
  intro urls text
  refine ⟨?_, ?_, ?_, ?_⟩
  · by_cases h0 : urls.length = 0
    · simp [validateUrls, h0]
    · by_cases h10 : urls.length > 10
      · simp [validateUrls, h0, h10]
      · have h10' : ¬(10 < urls.length) := h10
        cases hfi : firstInvalidIdx urls 0 with
        | none =>
          have hall := (firstInvalidIdx_eq_none urls 0).mp hfi
          simp only [validateUrls, hfi]
          simp [h0, h10']
          intro u hu
          exact hall u hu
        | some i =>
          have hnall : ¬(∀ u ∈ urls, urlPatternTest u = true) := by
            intro hall
            rw [(firstInvalidIdx_eq_none urls 0).mpr hall] at hfi
            cases hfi
          obtain ⟨u, hu, hbad⟩ := by
            push_neg at hnall
            exact hnall
          simp only [validateUrls, hfi]
          simp [h0, h10']
          exact ⟨u, hu, by simpa using hbad⟩
  · by_cases hv : (validateUrls (parseUrls text)).fst <;>
      simp [handleBulkSubmit, hv]
  · intro h0
    simp [validateUrls, h0]
  · intro h10
    have h0 : ¬(urls.length = 0) := by omega
    simp [validateUrls, h0, h10]

/-- Characterization of the regex matcher: it accepts exactly the character lists that
are one of the two scheme prefixes followed by at least one non-line-terminator
character. -/
theorem urlTestChars_iff (l : List Char) :
    urlTestChars l = true ↔
      ((∃ c cs, l = "http://".data ++ c :: cs ∧ isLineTerm c = false)
        ∨ (∃ c cs, l = "https://".data ++ c :: cs ∧ isLineTerm c = false)) := by
  unfold urlTestChars
  constructor
  · intro h
    simp only [Bool.or_eq_true, Bool.and_eq_true] at h
    rcases h with ⟨hd, hm⟩ | ⟨hd, hm⟩
    · 
      have htake : l.take 8 = "https://".data := of_decide_eq_true hd
      cases hdrop : l.drop 8 with
      | nil => rw [hdrop] at hm; cases hm
      | cons c cs =>
        rw [hdrop] at hm
        refine Or.inr ⟨c, cs, ?_, ?_⟩
        · rw [← htake, ← hdrop]
          exact (List.take_append_drop 8 l).symm
        · simpa [matchDotPlus] using hm
    · have htake : l.take 7 = "http://".data := of_decide_eq_true hd
      cases hdrop : l.drop 7 with
      | nil => rw [hdrop] at hm; cases hm
      | cons c cs =>
        rw [hdrop] at hm
        refine Or.inl ⟨c, cs, ?_, ?_⟩
        · rw [← htake, ← hdrop]
          exact (List.take_append_drop 7 l).symm
        · simpa [matchDotPlus] using hm
  · intro h
    rcases h with ⟨c, cs, heq, hterm⟩ | ⟨c, cs, heq, hterm⟩
    · have hlen : ("http://".data).length = 7 := by decide
      have htake : l.take 7 = "http://".data := by
        rw [heq]; exact List.take_left' hlen
      have hdrop : l.drop 7 = c :: cs := by
        rw [heq]; exact List.drop_left' hlen
      rw [Bool.or_eq_true]
      right
      rw [htake, hdrop]
      simp [matchDotPlus, hterm]
    · have hlen : ("https://".data).length = 8 := by decide
      have htake : l.take 8 = "https://".data := by
        rw [heq]; exact List.take_left' hlen
      have hdrop : l.drop 8 = c :: cs := by
        rw [heq]; exact List.drop_left' hlen
      rw [Bool.or_eq_true]
      left
      rw [htake, hdrop]
      simp [matchDotPlus, hterm]

/-- C6 counterexample: the claim that every accepted `original_url` is a
syntactically valid absolute HTTP/HTTPS URL fails at `http://a b`: the bulk-form
pattern accepts it (trimming does not alter it, the space being interior), yet the
embedded space makes it syntactically invalid. -/
theorem claim_C6_counterexample :
    urlPatternTest "http://a b" = true
      ∧ specValidHttpUrl "http://a b" = false := by
  exact ⟨by decide, by decide⟩

/-- C6 amended: bulk-form validation accepts exactly the strings that, after
case-folding, consist of the prefix `http://` or `https://` followed by at least one
non-line-terminator character; this is necessary but not sufficient for being a
syntactically valid absolute HTTP/HTTPS URL. -/
theorem claim_C6_amended_url_gate :
    ∀ s : String,
      urlPatternTest s = true ↔
        ((∃ c cs, s.data.map Char.toLower = "http://".data ++ c :: cs ∧ isLineTerm c = false)
          ∨ (∃ c cs, s.data.map Char.toLower = "https://".data ++ c :: cs
              ∧ isLineTerm c = false)) := by
  intro s
  exact urlTestChars_iff (s.data.map Char.toLower)

/-- `saveToHistory` preserves the history invariant (and establishes the length bound
unconditionally). -/
theorem histInv_saveToHistory (u : ShortenedURL) (prev : List ShortenedURL)
    (h : histInv prev) : histInv (saveToHistory u prev) := by
  constructor
  · exact (List.length_take_le MAX_HISTORY_ITEMS _)
  · apply List.Pairwise.sublist (List.take_sublist _ _)
    constructor
    · intro b hb
      have hb2 := List.of_mem_filter hb
      intro heq
      rw [heq] at hb2
      simp at hb2
    · exact List.Pairwise.filter _ h.2

/-- `removeFromHistory` preserves the history invariant. -/
theorem histInv_removeFromHistory (id : Nat) (prev : List ShortenedURL)
    (h : histInv prev) : histInv (removeFromHistory id prev) := by
  constructor
  · exact le_trans (List.length_filter_le _ _) h.1
  · exact List.Pairwise.filter _ h.2

/-- Any sequence of history operations preserves the invariant. -/
theorem histInv_applyHistOps (ops : List HistOp) :
    ∀ st : List ShortenedURL, histInv st → histInv (applyHistOps st ops) := by
  induction ops with
  | nil => intro st h; exact h
  | cons op rest ih =>
    intro st h
    apply ih
    cases op with
    | save u => exact histInv_saveToHistory u st h
    | remove id => exact histInv_removeFromHistory id st h

/-- C9: after every sequence of `saveToHistory`/`removeFromHistory` operations
starting from the empty history, the history holds at most 10 entries with pairwise
distinct `short_code` values; moreover `saveToHistory` always places the new URL at
the front and no other surviving entry carries its `short_code`. -/
theorem claim_C9_history_invariant :
    (∀ ops : List HistOp, histInv (applyHistOps [] ops))
      ∧ (∀ (u : ShortenedURL) (prev : List ShortenedURL),
          (saveToHistory u prev).head? = some u
            ∧ ∀ x ∈ (saveToHistory u prev).tail, x.short_code ≠ u.short_code) := by
  constructor
  · intro ops
    apply histInv_applyHistOps
    exact ⟨by simp [MAX_HISTORY_ITEMS], List.Pairwise.nil⟩
  · intro u prev
    have hcons : saveToHistory u prev
        = u :: (prev.filter (fun item => item.short_code != u.short_code)).take 9 := by
      unfold saveToHistory MAX_HISTORY_ITEMS
      rfl
    constructor
    · rw [hcons]; rfl
    · intro x hx
      rw [hcons] at hx
      simp only [List.tail_cons] at hx
      have hmem : x ∈ prev.filter (fun item => item.short_code != u.short_code) :=
        List.take_subset _ _ hx
      have := List.of_mem_filter hmem
      simpa using this

/-- A sample record used to witness the history theorem. -/
def sampleUrlA : ShortenedURL :=
  ⟨1, "abc123", "http://example.com/a", "http://sho.rt/abc123", "2026-01-01", none, 0, true⟩

/-- A second sample record with a different short code. -/
def sampleUrlB : ShortenedURL :=
  ⟨2, "xyz789", "http://example.com/b", "http://sho.rt/xyz789", "2026-01-02", none, 3, true⟩

/-- C9 witness: the invariant holds after a concrete save/save/remove run, and saving
over a one-entry history keeps the older distinct entry out of the front slot. -/
theorem claim_C9_witness :
    histInv (applyHistOps [] [HistOp.save sampleUrlA, HistOp.save sampleUrlB, HistOp.remove 2])
      ∧ (saveToHistory sampleUrlA [sampleUrlB]).head? = some sampleUrlA
      ∧ sampleUrlB.short_code ≠ sampleUrlA.short_code :=
  ⟨claim_C9_history_invariant.1 [HistOp.save sampleUrlA, HistOp.save sampleUrlB, HistOp.remove 2],
    (claim_C9_history_invariant.2 sampleUrlA [sampleUrlB]).1,
    (claim_C9_history_invariant.2 sampleUrlA [sampleUrlB]).2 sampleUrlB (by decide)⟩

/-- Summing a pointwise sum of two functions over a mapped list splits into two sums. -/
theorem sum_map_add {α : Type} (f g : α → Nat) (L : List α) :
    (L.map (fun x => f x + g x)).sum = (L.map f).sum + (L.map g).sum := by
  induction L with
  | nil => rfl
  | cons a t ih => simp [ih]; omega

/-- The indicator of a value at least `n` never fires over `range n`. -/
theorem indicator_sum_of_ge (x n : Nat) (h : n ≤ x) :
    ((List.range n).map (fun k => if x == k then 1 else 0)).sum = 0 := by
  induction n with
  | zero => rfl
  | succ n ih =>
    rw [List.range_succ, List.map_append, List.sum_append, ih (by omega)]
    have hx : ¬x = n := by omega
    simp [hx]

/-- The indicator of a value below `n` fires exactly once over `range n`. -/
theorem indicator_sum_of_lt (x n : Nat) (h : x < n) :
    ((List.range n).map (fun k => if x == k then 1 else 0)).sum = 1 := by
  induction n with
  | zero => omega
  | succ n ih =>
    rw [List.range_succ, List.map_append, List.sum_append]
    by_cases hx : x = n
    · subst hx
      rw [indicator_sum_of_ge x x (le_refl x)]
      simp
    · have hx2 : (x == n) = false := by
        simp only [beq_eq_false_iff_ne]
        exact hx
      have hlt : x < n := by omega
      rw [ih hlt]
      simp [hx]

/-- Bucketing a list of click events by hour of day partitions it: the bucket sizes
sum to the list length. -/
theorem hour_filter_sum (l : List ClickEvent) :
    ((List.range 24).map
        (fun h => (l.filter (fun e => hourOfDay e.clicked_at == h)).length)).sum
      = l.length := by
  induction l with
  | nil => simp
  | cons e t ih =>
    have key : ∀ h : Nat,
        (List.filter (fun e2 => hourOfDay e2.clicked_at == h) (e :: t)).length
          = (if hourOfDay e.clicked_at == h then 1 else 0)
            + (List.filter (fun e2 => hourOfDay e2.clicked_at == h) t).length := by
      intro h
      by_cases hc : (hourOfDay e.clicked_at == h) = true
      · simp [List.filter_cons, hc]
        omega
      · simp only [Bool.not_eq_true] at hc
        simp [List.filter_cons, hc]
    simp only [key]
    rw [sum_map_add (fun h => if hourOfDay e.clicked_at == h then 1 else 0)
      (fun h => (List.filter (fun e2 => hourOfDay e2.clicked_at == h) t).length)]
    have hlt : hourOfDay e.clicked_at < 24 := Nat.mod_lt _ (by omega)
    rw [indicator_sum_of_lt _ 24 hlt, ih]
    simp [Nat.add_comm]

/-- C8: `clicks_by_hour` always has exactly 24 entries whose `hour` fields are
0 through 23 in order (zero-filled buckets included), and the bucket counts sum to
`total_clicks`. -/
theorem claim_C8_hour_histogram :
    ∀ events : List ClickEvent,
      (clicksByHour events).length = 24
        ∧ (clicksByHour events).map HourBucket.hour = List.range 24
        ∧ ((clicksByHour events).map HourBucket.count).sum = totalClicks events := by
  intro events
  refine ⟨?_, ?_, ?_⟩
  · simp [clicksByHour]
  · simp [clicksByHour, List.map_map, Function.comp_def]
  · simp only [clicksByHour, List.map_map, Function.comp, totalClicks]
    exact hour_filter_sum events

/-- Splitting a list by a boolean predicate: the lengths of the filter and its
complement sum to the length of the list. -/
theorem filter_length_add {α : Type} (p : α → Bool) (l : List α) :
    (l.filter p).length + (l.filter (fun a => !p a)).length = l.length := by
  induction l with
  | nil => rfl
  | cons a t ih =>
    by_cases h : p a = true <;> simp [List.filter_cons, h] <;> omega

/-- Per-item successes of the modelled bulk run are exactly the requests with a valid
URL. -/
theorem createMany_success_aligns (reqs : List BulkRequest) :
    ((reqs.map createOneItem).filter (fun it => it.url.isSome)).length
      = (reqs.filter (fun r => specValidHttpUrl r.original_url)).length := by
  induction reqs with
  | nil => rfl
  | cons r t ih =>
    by_cases h : specValidHttpUrl r.original_url <;>
      simp [createOneItem, List.filter_cons, h, ih]

/-- Per-item failures of the modelled bulk run are exactly the requests with a
malformed URL. -/
theorem createMany_error_aligns (reqs : List BulkRequest) :
    ((reqs.map createOneItem).filter (fun it => it.error.isSome)).length
      = (reqs.filter (fun r => !specValidHttpUrl r.original_url)).length := by
  induction reqs with
  | nil => rfl
  | cons r t ih =>
    by_cases h : specValidHttpUrl r.original_url <;>
      simp [createOneItem, List.filter_cons, h, ih]

/-- C3: for every batch of 1 to 10 requests the modelled bulk creation succeeds at
the batch level, returns one result per item in order, and its derived counts satisfy
`success_count` = number of valid items, `error_count` = number of malformed items,
summing to the batch size — one item's failure never aborts the siblings. -/
theorem claim_C3_bulk_item_isolation :
    ∀ reqs : List BulkRequest, 1 ≤ reqs.length → reqs.length ≤ 10 →
      ∃ resp : BulkResponse, createMany reqs = Except.ok resp
        ∧ resp.results = reqs.map createOneItem
        ∧ resp.results.length = reqs.length
        ∧ resp.success_count = (reqs.filter (fun r => specValidHttpUrl r.original_url)).length
        ∧ resp.error_count = (reqs.filter (fun r => !specValidHttpUrl r.original_url)).length
        ∧ resp.success_count + resp.error_count = reqs.length := by
  intro reqs h1 h10
  unfold createMany
  rw [if_neg (by simp only [Bool.or_eq_true, beq_iff_eq, decide_eq_true_eq]; omega)]
  refine ⟨_, rfl, rfl, ?_, ?_, ?_, ?_⟩
  · simp
  · exact createMany_success_aligns reqs
  · exact createMany_error_aligns reqs
  · rw [createMany_success_aligns reqs, createMany_error_aligns reqs]
    exact filter_length_add _ reqs

/-- A valid bulk request used in the C3 witness. -/
def bulkReqA : BulkRequest := ⟨"https://example.com/a", none⟩

/-- A second valid bulk request used in the C3 witness. -/
def bulkReqB : BulkRequest := ⟨"https://example.com/b", some 24⟩

/-- A malformed bulk request used in the C3 witness. -/
def bulkReqBad : BulkRequest := ⟨"not-a-url", none⟩

/-- C3 witness: the spec's example — a batch of 3 URLs with one malformed — is in
range, the theorem applies to it, and its valid/malformed splits have sizes 2 and 1,
so the derived counts are `success_count = 2` and `error_count = 1`. -/
theorem claim_C3_witness :
    1 ≤ ([bulkReqA, bulkReqB, bulkReqBad] : List BulkRequest).length
      ∧ ([bulkReqA, bulkReqB, bulkReqBad] : List BulkRequest).length ≤ 10
      ∧ (∃ resp : BulkResponse,
          createMany [bulkReqA, bulkReqB, bulkReqBad] = Except.ok resp
            ∧ resp.results = [bulkReqA, bulkReqB, bulkReqBad].map createOneItem
            ∧ resp.results.length = ([bulkReqA, bulkReqB, bulkReqBad] : List BulkRequest).length
            ∧ resp.success_count
                = ([bulkReqA, bulkReqB, bulkReqBad].filter
                    (fun r => specValidHttpUrl r.original_url)).length
            ∧ resp.error_count
                = ([bulkReqA, bulkReqB, bulkReqBad].filter
                    (fun r => !specValidHttpUrl r.original_url)).length
            ∧ resp.success_count + resp.error_count
                = ([bulkReqA, bulkReqB, bulkReqBad] : List BulkRequest).length)
      ∧ ([bulkReqA, bulkReqB, bulkReqBad].filter
          (fun r => specValidHttpUrl r.original_url)).length = 2
      ∧ ([bulkReqA, bulkReqB, bulkReqBad].filter
          (fun r => !specValidHttpUrl r.original_url)).length = 1 :=
  ⟨by decide, by decide,
    claim_C3_bulk_item_isolation [bulkReqA, bulkReqB, bulkReqBad] (by decide) (by decide),
    by decide, by decide⟩

/-- C2 witness: the empty batch triggers the empty-batch validation message. -/
theorem claim_C2_witness :
    (([] : List String).length = 0)
      ∧ (validateUrls []).snd = some "Enter at least one URL" :=
  ⟨rfl, (claim_C2_amended_batch_rejection [] "").2.2.1 rfl⟩
